import Mathlib

/-!
Verification of the reSIDfp `Integrator6581` component
(src/src/builders/residfp-builder/residfp/Integrator6581.h).

The C++ class stores three borrowed lookup tables (`vcr_kVg`,
`vcr_n_Ids_term`, `opamp_rev`), two calibration scalars (`kVddt`,
`n_snake`), one cached derived parameter (`Vddt_Vw_2`) and two evolving
state scalars (`vx`, `vc`).  The LUT collaborator is external to this
repository; its contract is only that `output` is a pure function, so a
table is modelled as a plain function `ℚ → ℚ`.  The C++ `float`
arithmetic is modelled exactly over the rationals: every operation used
by the code (addition, subtraction, multiplication, division by the
constants 2 and 65536, comparison) is embedded by the corresponding
exact rational operation.  The `mutable` fields updated by the
const-qualified `solve` are modelled by explicit state passing: `solve`
returns the output voltage together with the updated state.
-/

namespace ReSIDfp

/-- The state of one `Integrator6581` instance: the three table
references, the cached parameter `Vddt_Vw_2`, the evolving state
scalars `vx` and `vc`, and the calibration constants `kVddt` and
`n_snake`, mirroring the field list of the C++ class. -/
@[ext]
structure Integrator6581 where
  vcr_kVg : ℚ → ℚ
  vcr_n_Ids_term : ℚ → ℚ
  opamp_rev : ℚ → ℚ
  Vddt_Vw_2 : ℚ
  vx : ℚ
  vc : ℚ
  kVddt : ℚ
  n_snake : ℚ

/-- The constructor: stores the tables and calibration scalars and
initializes `Vddt_Vw_2`, `vx`, `vc` to zero. -/
def Integrator6581.init (kVg Ids rev : ℚ → ℚ) (kVddt n_snake : ℚ) :
    Integrator6581 :=
  { vcr_kVg := kVg
    vcr_n_Ids_term := Ids
    opamp_rev := rev
    Vddt_Vw_2 := 0
    vx := 0
    vc := 0
    kVddt := kVddt
    n_snake := n_snake }

/-- `setVw(Vw)`: `Vddt_Vw_2 = (kVddt - Vw) * (kVddt - Vw)`. -/
def Integrator6581.setVw (s : Integrator6581) (Vw : ℚ) : Integrator6581 :=
  { s with Vddt_Vw_2 := (s.kVddt - Vw) * (s.kVddt - Vw) }

/-- The "snake" current term of `solve`:
`n_I_snake = n_snake * (Vgst_2 - Vgdt_2)` where the squares are passed
in expanded. -/
def snakeTerm (n_snake Vgst Vgdt : ℚ) : ℚ :=
  n_snake * (Vgst * Vgst - Vgdt * Vgdt)

/-- The VCR current term of `solve`, a signed table difference:
`n_I_vcr = vcr_n_Ids_term->output(Vgs) - vcr_n_Ids_term->output(Vgd)`. -/
def vcrTerm (T : ℚ → ℚ) (Vgs Vgd : ℚ) : ℚ :=
  T Vgs - T Vgd

/-- The VCR gate voltage computed inside `solve`:
`kVg = vcr_kVg->output(((Vddt_Vw_2 + Vgdt_2) / 2.f) / 65536.f)` with
`Vgdt = kVddt - vi`. -/
def Integrator6581.solveKVg (s : Integrator6581) (vi : ℚ) : ℚ :=
  s.vcr_kVg (((s.Vddt_Vw_2 + (s.kVddt - vi) * (s.kVddt - vi)) / 2) / 65536)

/-- The clamped source-side overdrive computed inside `solve`:
`Vgs = (vx < kVg) ? kVg - vx : 0`. -/
def Integrator6581.solveVgs (s : Integrator6581) (vi : ℚ) : ℚ :=
  if s.vx < s.solveKVg vi then s.solveKVg vi - s.vx else 0

/-- The clamped drain-side overdrive computed inside `solve`:
`Vgd = (vi < kVg) ? kVg - vi : 0`. -/
def Integrator6581.solveVgd (s : Integrator6581) (vi : ℚ) : ℚ :=
  if vi < s.solveKVg vi then s.solveKVg vi - vi else 0

/-- `solve(vi)`: the per-sample relaxation step, following the body of
`Integrator6581::solve` statement by statement.  Returns the output
voltage `vo = vx - vc` together with the updated state (`vx` and `vc`
are the `mutable` fields the const member function updates). -/
def Integrator6581.solve (s : Integrator6581) (vi : ℚ) : ℚ × Integrator6581 :=
  let Vgst := s.kVddt - s.vx
  let Vgdt := s.kVddt - vi
  let n_I_snake := snakeTerm s.n_snake Vgst Vgdt
  let n_I_vcr := vcrTerm s.vcr_n_Ids_term (s.solveVgs vi) (s.solveVgd vi)
  let vcNew := s.vc + (n_I_snake / 65536) + n_I_vcr
  let vxNew := s.opamp_rev ((vcNew / 2) + 32768)
  (vxNew - vcNew, { s with vx := vxNew, vc := vcNew })

/-- The spec's steps 1-8 for `solve`, written word for word from the
natural-language specification (overdrive terms, snake current, `kVg`
lookup at the scaled average, `max`-clamped overdrives, signed table
difference, integration with the 65536 divisor on the snake term only,
op-amp inverse update at `vc / 2 + 32768`, return `vx - vc`).  Used
only to be compared with `Integrator6581.solve`, which is translated
from the source. -/
def solveSpecSteps (s : Integrator6581) (vi : ℚ) : ℚ × Integrator6581 :=
  let Vgst := s.kVddt - s.vx
  let Vgdt := s.kVddt - vi
  let kVg := s.vcr_kVg (((s.Vddt_Vw_2 + Vgdt * Vgdt) / 2) / 65536)
  let Vgs := max (kVg - s.vx) 0
  let Vgd := max (kVg - vi) 0
  let vcNew := s.vc + s.n_snake * (Vgst * Vgst - Vgdt * Vgdt) / 65536
      + (s.vcr_n_Ids_term Vgs - s.vcr_n_Ids_term Vgd)
  let vxNew := s.opamp_rev (vcNew / 2 + 32768)
  (vxNew - vcNew, { s with vx := vxNew, vc := vcNew })

/-- The conditional clamp of the code coincides with the `max`-to-zero
clamp of the spec. -/
lemma ite_lt_eq_max (a b : ℚ) :
    (if a < b then b - a else 0) = max (b - a) 0 := by
  split_ifs with h
  · exact (max_eq_left (by linarith)).symm
  · exact (max_eq_right (by linarith)).symm

/-- C1: for every state and every input `vi` with `vx < kVddt` and
`vi < kVddt`, one call of `solve vi` performs exactly the spec's steps
1-8: same `kVg` lookup index, `max`-clamped `Vgs`/`Vgd`, the `vc`
update with the 65536 divisor on the snake term only, the new
`vx = opamp_rev(vc / 2 + 32768)`, and the returned `vo = vx - vc`. -/
theorem solve_eq_specSteps (s : Integrator6581) (vi : ℚ)
    (hvx : s.vx < s.kVddt) (hvi : vi < s.kVddt) :
    s.solve vi = solveSpecSteps s vi := by
  unfold Integrator6581.solve solveSpecSteps
  simp only [Integrator6581.solveVgs, Integrator6581.solveVgd,
    Integrator6581.solveKVg, snakeTerm, vcrTerm, ite_lt_eq_max]

/-- C5: `setVw Vw` sets `Vddt_Vw_2` to exactly the square of
`kVddt - Vw`. -/
theorem setVw_Vddt_Vw_2 (s : Integrator6581) (Vw : ℚ) :
    (s.setVw Vw).Vddt_Vw_2 = (s.kVddt - Vw) ^ 2 := by
  simp [Integrator6581.setVw, sq]

/-- C6: `setVw` mutates only the cached derived parameter `Vddt_Vw_2`;
`vx`, `vc`, the calibration constants and the three table references
are left unchanged, so its effect can only be observed through a later
`solve`. -/
theorem setVw_frame (s : Integrator6581) (Vw : ℚ) :
    (s.setVw Vw).vx = s.vx ∧ (s.setVw Vw).vc = s.vc ∧
    (s.setVw Vw).kVddt = s.kVddt ∧ (s.setVw Vw).n_snake = s.n_snake ∧
    (s.setVw Vw).vcr_kVg = s.vcr_kVg ∧
    (s.setVw Vw).vcr_n_Ids_term = s.vcr_n_Ids_term ∧
    (s.setVw Vw).opamp_rev = s.opamp_rev := by
  refine ⟨rfl, rfl, rfl, rfl, rfl, rfl, rfl⟩

/-- C10: `solve` mutates only the two evolving state scalars `vx` and
`vc`; the cached parameter `Vddt_Vw_2`, the calibration constants and
the three table references of the new state are those of the old
state, and the tables themselves (being referenced functions) are
never written. -/
theorem solve_frame (s : Integrator6581) (vi : ℚ) :
    ((s.solve vi).2).Vddt_Vw_2 = s.Vddt_Vw_2 ∧
    ((s.solve vi).2).kVddt = s.kVddt ∧
    ((s.solve vi).2).n_snake = s.n_snake ∧
    ((s.solve vi).2).vcr_kVg = s.vcr_kVg ∧
    ((s.solve vi).2).vcr_n_Ids_term = s.vcr_n_Ids_term ∧
    ((s.solve vi).2).opamp_rev = s.opamp_rev := by
  refine ⟨rfl, rfl, rfl, rfl, rfl, rfl⟩

/-- A concrete valid instance used by witnesses: identity tables,
`kVddt = 1`, `n_snake = 1`, freshly constructed state. -/
def idInstance : Integrator6581 :=
  Integrator6581.init (fun x => x) (fun x => x) (fun x => x) 1 1

/-- Witness for C1: at the concrete instance `idInstance` with input
`0` both preconditions hold and the theorem applies. -/
theorem solve_eq_specSteps_witness :
    idInstance.vx < idInstance.kVddt ∧ (0 : ℚ) < idInstance.kVddt ∧
    idInstance.solve 0 = solveSpecSteps idInstance 0 := by
  refine ⟨by norm_num [idInstance, Integrator6581.init],
    by norm_num [idInstance, Integrator6581.init],
    solve_eq_specSteps idInstance 0
      (by norm_num [idInstance, Integrator6581.init])
      (by norm_num [idInstance, Integrator6581.init])⟩

/-- C2: the concrete regression of the spec.  With `kVddt = 1`,
`n_snake = 1`, all three tables the identity function and a freshly
constructed state, `setVw (1/2)` followed by `solve (1/5)` produces
exactly the manually executed steps 1-8: `Vddt_Vw_2 = 1/4`,
`n_I_snake = 9/25` (that is `0.36`), `kVg = 0.89/131072`, `Vgs = kVg`,
`Vgd = 0`, `vc = 0.36/65536 + kVg`, `vx = vc/2 + 32768` and the
returned value `vx - vc`. -/
theorem regression_identity_tables :
    (idInstance.setVw (1/2)).Vddt_Vw_2 = 1/4 ∧
    snakeTerm 1 (1 - 0) (1 - 1/5) = 9/25 ∧
    (idInstance.setVw (1/2)).solveKVg (1/5) = (89/100) / 131072 ∧
    (idInstance.setVw (1/2)).solveVgs (1/5) = (89/100) / 131072 ∧
    (idInstance.setVw (1/2)).solveVgd (1/5) = 0 ∧
    ((idInstance.setVw (1/2)).solve (1/5)).2.vc
      = (9/25) / 65536 + (89/100) / 131072 ∧
    ((idInstance.setVw (1/2)).solve (1/5)).2.vx
      = ((9/25) / 65536 + (89/100) / 131072) / 2 + 32768 ∧
    ((idInstance.setVw (1/2)).solve (1/5)).1
      = (((9/25) / 65536 + (89/100) / 131072) / 2 + 32768)
        - ((9/25) / 65536 + (89/100) / 131072) := by
  norm_num [idInstance, Integrator6581.init, Integrator6581.setVw,
    Integrator6581.solve, Integrator6581.solveKVg, Integrator6581.solveVgs,
    Integrator6581.solveVgd, snakeTerm, vcrTerm]

/-- One external call on an integrator: either a per-sample `solve`
with an input voltage, or a control-parameter update `setVw`. -/
inductive Cmd where
  | doSolve (vi : ℚ)
  | doSetVw (Vw : ℚ)

/-- Run a sequence of `solve` and `setVw` calls, returning the final
state. -/
def runCmds (s : Integrator6581) : List Cmd → Integrator6581
  | [] => s
  | Cmd.doSolve vi :: cs => runCmds ((s.solve vi).2) cs
  | Cmd.doSetVw Vw :: cs => runCmds (s.setVw Vw) cs

/-- Counterexample to C3 as stated: with identity tables, `kVddt = 1`,
a fresh state (`vx = 0 < kVddt`) and input `vi = 0 < kVddt`, the new
`vx` stored by `solve 0` is `32768`, which is not below `kVddt`: the
recurrence alone does not preserve the operating-region invariant for
an arbitrary `opamp_rev` table. -/
theorem vx_invariant_counterexample :
    idInstance.vx < idInstance.kVddt ∧ (0 : ℚ) < idInstance.kVddt ∧
    ¬ ((idInstance.solve 0).2.vx < idInstance.kVddt) := by
  norm_num [idInstance, Integrator6581.init, Integrator6581.solve,
    Integrator6581.solveKVg, Integrator6581.solveVgs,
    Integrator6581.solveVgd, snakeTerm, vcrTerm]

/-- C3 amended: provided the `opamp_rev` table only produces values
strictly below `kVddt` (true of a calibrated op-amp inverse table,
whose range is the op-amp output swing), a state with `vx < kVddt`
keeps `vx < kVddt` across any sequence of `solve` and `setVw` calls. -/
theorem vx_invariant_of_opamp_range (s : Integrator6581) (cmds : List Cmd)
    (hR : ∀ x, s.opamp_rev x < s.kVddt) (hvx : s.vx < s.kVddt) :
    (runCmds s cmds).vx < s.kVddt := by
  induction cmds generalizing s with
  | nil => exact hvx
  | cons c cs ih =>
      cases c with
      | doSolve vi =>
          have h' : ((s.solve vi).2).vx < ((s.solve vi).2).kVddt := hR _
          exact ih _ (fun x => hR x) h'
      | doSetVw Vw =>
          exact ih _ (fun x => hR x) hvx

/-- A concrete instance with constant tables whose `opamp_rev` range
(the constant `-1`) lies strictly below `kVddt = 0`, started in the
valid region. -/
def negInstance : Integrator6581 :=
  { vcr_kVg := fun _ => 0
    vcr_n_Ids_term := fun _ => 0
    opamp_rev := fun _ => -1
    Vddt_Vw_2 := 0
    vx := -1/2
    vc := 0
    kVddt := 0
    n_snake := 1 }

/-- Witness for the amended C3: at `negInstance` both hypotheses hold
and `vx` stays below `kVddt` after a mixed call sequence. -/
theorem vx_invariant_of_opamp_range_witness :
    (∀ x : ℚ, negInstance.opamp_rev x < negInstance.kVddt) ∧
    negInstance.vx < negInstance.kVddt ∧
    (runCmds negInstance
        [Cmd.doSolve (-1), Cmd.doSetVw 2, Cmd.doSolve (-3)]).vx
      < negInstance.kVddt := by
  refine ⟨fun x => by norm_num [negInstance], by norm_num [negInstance],
    vx_invariant_of_opamp_range negInstance _
      (fun x => by norm_num [negInstance]) (by norm_num [negInstance])⟩

/-- An instance identical to `idInstance` except that the `vcr_kVg`
table answers the constant `70000`, which exceeds `2 ^ 16`. -/
def bigKVgInstance : Integrator6581 :=
  { idInstance with vcr_kVg := fun _ => 70000 }

/-- Counterexample to C4 as stated: at `bigKVgInstance` both
preconditions `vx < kVddt` and `vi = 0 < kVddt` hold, yet the clamped
overdrive `Vgs = kVg - vx = 70000` is not below `2 ^ 16`: nothing in
the code bounds the `vcr_kVg` table's output, so the asserted upper
bound can fail. -/
theorem vgs_domain_counterexample :
    bigKVgInstance.vx < bigKVgInstance.kVddt ∧
    (0 : ℚ) < bigKVgInstance.kVddt ∧
    ¬ (bigKVgInstance.solveVgs 0 < 2 ^ 16) := by
  norm_num [bigKVgInstance, idInstance, Integrator6581.init,
    Integrator6581.solveVgs, Integrator6581.solveKVg]

/-- C4 amended: under the preconditions `vx < kVddt` and `vi < kVddt`,
and provided additionally that the `vcr_kVg` table's outputs are
strictly below `2 ^ 16` and that the voltages `vx` and `vi` are
nonnegative, the clamped overdrives `Vgs` and `Vgd` are nonnegative
(unconditionally, by the clamp) and strictly below `2 ^ 16`, so the
code's assertions hold. -/
theorem vgs_vgd_domain (s : Integrator6581) (vi : ℚ)
    (hvx : s.vx < s.kVddt) (hvi : vi < s.kVddt)
    (hT : ∀ x, s.vcr_kVg x < 2 ^ 16) (hx0 : 0 ≤ s.vx) (hi0 : 0 ≤ vi) :
    0 ≤ s.solveVgs vi ∧ s.solveVgs vi < 2 ^ 16 ∧
    0 ≤ s.solveVgd vi ∧ s.solveVgd vi < 2 ^ 16 := by
  have hk := hT (((s.Vddt_Vw_2 + (s.kVddt - vi) * (s.kVddt - vi)) / 2) / 65536)
  unfold Integrator6581.solveVgs Integrator6581.solveVgd
    Integrator6581.solveKVg
  refine ⟨?_, ?_, ?_, ?_⟩ <;> split_ifs with h <;> linarith [hk]

/-- An instance whose `vcr_kVg` table is the constant `100`, bounded
well below `2 ^ 16`. -/
def boundedInstance : Integrator6581 :=
  { idInstance with vcr_kVg := fun _ => 100 }

/-- Witness for the amended C4: at `boundedInstance` with `vi = 1/5`
every hypothesis holds and both clamped overdrives are in range. -/
theorem vgs_vgd_domain_witness :
    boundedInstance.vx < boundedInstance.kVddt ∧
    (1/5 : ℚ) < boundedInstance.kVddt ∧
    (∀ x : ℚ, boundedInstance.vcr_kVg x < 2 ^ 16) ∧
    (0 : ℚ) ≤ boundedInstance.vx ∧ (0 : ℚ) ≤ (1/5 : ℚ) ∧
    (0 ≤ boundedInstance.solveVgs (1/5) ∧
      boundedInstance.solveVgs (1/5) < 2 ^ 16 ∧
      0 ≤ boundedInstance.solveVgd (1/5) ∧
      boundedInstance.solveVgd (1/5) < 2 ^ 16) := by
  refine ⟨by norm_num [boundedInstance, idInstance, Integrator6581.init],
    by norm_num [boundedInstance, idInstance, Integrator6581.init],
    fun x => by norm_num [boundedInstance, idInstance, Integrator6581.init],
    by norm_num [boundedInstance, idInstance, Integrator6581.init],
    by norm_num,
    vgs_vgd_domain boundedInstance (1/5)
      (by norm_num [boundedInstance, idInstance, Integrator6581.init])
      (by norm_num [boundedInstance, idInstance, Integrator6581.init])
      (fun x => by norm_num [boundedInstance, idInstance, Integrator6581.init])
      (by norm_num [boundedInstance, idInstance, Integrator6581.init])
      (by norm_num)⟩

/-- Big-step relation of a sequence of `solve` calls: from a starting
state, consuming the input list produces the output list and the
final state.  Mirrors the sequential per-sample invocation of the
integrator by the filter stage. -/
inductive RunRel : Integrator6581 → List ℚ → List ℚ → Integrator6581 → Prop where
  | nil (s : Integrator6581) : RunRel s [] [] s
  | step (s : Integrator6581) (vi vo : ℚ) (s' : Integrator6581)
      (ins outs : List ℚ) (sf : Integrator6581) :
      s.solve vi = (vo, s') → RunRel s' ins outs sf →
      RunRel s (vi :: ins) (vo :: outs) sf

/-- C7: `solve` is deterministic.  For a fixed initial state (which
carries the calibration constants and the table contents), two runs
of the same input sequence produce the same output sequence and the
same final state: there are no hidden inputs. -/
theorem solve_deterministic (s : Integrator6581) (ins : List ℚ)
    (outs₁ outs₂ : List ℚ) (f₁ f₂ : Integrator6581)
    (h₁ : RunRel s ins outs₁ f₁) (h₂ : RunRel s ins outs₂ f₂) :
    outs₁ = outs₂ ∧ f₁ = f₂ := by
  induction h₁ generalizing outs₂ f₂ with
  | nil s =>
      cases h₂
      exact ⟨rfl, rfl⟩
  | step s vi vo s' ins outs sf hstep htail ih =>
      cases h₂ with
      | step _ _ vo₂ s₂ _ outs₂' _ hstep₂ htail₂ =>
          have hpair : (vo, s') = (vo₂, s₂) := hstep.symm.trans hstep₂
          cases hpair
          obtain ⟨ho, hf⟩ := ih _ _ htail₂
          exact ⟨by rw [ho], hf⟩

/-- Witness for C7: a concrete one-step run at `idInstance`, used
twice, yields equal outputs and equal final states. -/
theorem solve_deterministic_witness :
    RunRel idInstance [0] [(idInstance.solve 0).1] ((idInstance.solve 0).2) ∧
    [(idInstance.solve 0).1] = [(idInstance.solve 0).1] ∧
    (idInstance.solve 0).2 = (idInstance.solve 0).2 := by
  have hrun : RunRel idInstance [0]
      [(idInstance.solve 0).1] ((idInstance.solve 0).2) :=
    RunRel.step _ 0 _ _ [] [] _ rfl (RunRel.nil _)
  exact ⟨hrun, (solve_deterministic idInstance [0] _ _ _ _ hrun hrun).1,
    (solve_deterministic idInstance [0] _ _ _ _ hrun hrun).2⟩

/-- The mirrored partner of `idInstance` for the symmetry claim: the
stored `vx` and the call input exchange their values (`vx = 1/2`,
input `0` instead of `vx = 0`, input `1/2`). -/
def swappedInstance : Integrator6581 :=
  { idInstance with vx := 1/2 }

/-- Counterexample to C8 as stated: with identity tables and
`kVddt = 1`, both the original call (`vx = 0`, `vi = 1/2`) and the
mirrored call (`vx = 1/2`, `vi = 0`) are in the valid region, yet the
mirrored output is not the negation of the original output — both
outputs are near `+32768`, because `kVg` depends only on the `vi`-side
overdrive and the op-amp rebias `vc / 2 + 32768` is not odd. -/
theorem sign_mirror_counterexample :
    idInstance.vx < idInstance.kVddt ∧ (1/2 : ℚ) < idInstance.kVddt ∧
    swappedInstance.vx < swappedInstance.kVddt ∧
    (0 : ℚ) < swappedInstance.kVddt ∧
    ¬ ((swappedInstance.solve 0).1 = -((idInstance.solve (1/2)).1)) := by
  norm_num [swappedInstance, idInstance, Integrator6581.init,
    Integrator6581.solve, Integrator6581.solveKVg, Integrator6581.solveVgs,
    Integrator6581.solveVgd, snakeTerm, vcrTerm]

/-- C8 amended: the sign-mirror symmetry holds of the two current
terms rather than of the full `solve` output.  Exchanging the roles of
the two terminals exactly negates the VCR current
`vcr_n_Ids_term(Vgs) - vcr_n_Ids_term(Vgd)` and the snake current
`n_snake * (Vgst² - Vgdt²)`: the signed table difference computes
correct bidirectional current from one monotonic table. -/
theorem current_terms_antisymmetric (T : ℚ → ℚ) (n a b : ℚ) :
    vcrTerm T a b = -(vcrTerm T b a) ∧
    snakeTerm n a b = -(snakeTerm n b a) := by
  constructor
  · simp [vcrTerm]
  · unfold snakeTerm
    ring

/-- Iterated per-sample state: `n` consecutive `solve` calls with the
same input voltage `vi`. -/
def iterState (s : Integrator6581) (vi : ℚ) : ℕ → Integrator6581
  | 0 => s
  | n + 1 => ((iterState s vi n).solve vi).2

/-- The output of the `(n+1)`-st consecutive `solve` call with the
constant input `vi`. -/
def outSeq (s : Integrator6581) (vi : ℚ) (n : ℕ) : ℚ :=
  ((iterState s vi n).solve vi).1

/-- A constant-table instance on which the recurrence drifts: the
`opamp_rev` table is the constant `-1` (inside the valid region below
`kVddt = 0`), the current tables are the constant `0`, and the state
starts at `vx = -1`, `vc = 0`. -/
def driftInstance : Integrator6581 :=
  { negInstance with vx := -1 }

/-- On `driftInstance` with constant input `-2`, the state after `n`
calls keeps `vx = -1` and has accumulated `vc = -(3 n) / 65536`. -/
lemma iterState_drift (n : ℕ) :
    iterState driftInstance (-2) n
      = { driftInstance with vc := -(3 * (n : ℚ)) / 65536 } := by
  induction n with
  | zero =>
      ext <;> simp [driftInstance, negInstance, iterState]
  | succ k ih =>
      rw [iterState, ih]
      ext <;>
        simp [driftInstance, negInstance, Integrator6581.solve,
          Integrator6581.solveKVg, Integrator6581.solveVgs,
          Integrator6581.solveVgd, snakeTerm, vcrTerm]
      ring

/-- On `driftInstance` with constant input `-2`, the `n`-th output is
`-1 + 3 (n + 1) / 65536`: the outputs drift upward by the fixed step
`3 / 65536` every sample. -/
lemma outSeq_drift (n : ℕ) :
    outSeq driftInstance (-2) n = -1 + (3 * ((n : ℚ) + 1)) / 65536 := by
  rw [outSeq, iterState_drift]
  simp [driftInstance, negInstance, Integrator6581.solve,
    Integrator6581.solveKVg, Integrator6581.solveVgs,
    Integrator6581.solveVgd, snakeTerm, vcrTerm]
  ring

/-- Counterexample to C9 as stated: `driftInstance` is a valid initial
state (`vx = -1 < kVddt = 0`) and the constant input `-2 < kVddt` is
valid, yet the output sequence converges to no limit: consecutive
outputs always differ by exactly `3 / 65536`, so no tolerance below
that step is eventually met.  Nothing in the code forces the
externally supplied tables to make the relaxation settle. -/
theorem settling_counterexample :
    driftInstance.vx < driftInstance.kVddt ∧
    (-2 : ℚ) < driftInstance.kVddt ∧
    ¬ ∃ L : ℚ, ∀ ε : ℚ, 0 < ε → ∃ N : ℕ, ∀ n : ℕ, N ≤ n →
        |outSeq driftInstance (-2) n - L| < ε := by
  refine ⟨by norm_num [driftInstance, negInstance],
    by norm_num [driftInstance, negInstance], ?_⟩
  rintro ⟨L, hL⟩
  obtain ⟨N, hN⟩ := hL (3 / 131072) (by norm_num)
  have h₁ := hN N le_rfl
  have h₂ := hN (N + 1) (Nat.le_succ N)
  rw [outSeq_drift, abs_lt] at h₁ h₂
  push_cast at h₁ h₂
  linarith [h₁.1, h₁.2, h₂.1, h₂.2]

/-- C9 amended: settling holds at a fixed point of the per-sample
recurrence.  If the current state is left unchanged by `solve vi`,
then every subsequent output of the constant-input sequence equals the
first one (so the outputs are within any tolerance of the fixed-point
output); for arbitrary tables satisfying only the purity contract the
outputs need not converge at all. -/
theorem settling_at_fixed_point (s : Integrator6581) (vi : ℚ)
    (hfix : (s.solve vi).2 = s) (n : ℕ) :
    outSeq s vi n = outSeq s vi 0 := by
  have hstate : ∀ m : ℕ, iterState s vi m = s := by
    intro m
    induction m with
    | zero => rfl
    | succ k ih => rw [iterState, ih, hfix]
  rw [outSeq, outSeq, hstate, hstate]

/-- A fixed point of the per-sample recurrence: like `driftInstance`
but with `vc = 7` and input `-1`, the charge increment is zero and the
op-amp table reproduces `vx = -1`. -/
def fixInstance : Integrator6581 :=
  { negInstance with vx := -1, vc := 7 }

/-- Witness for the amended C9: `fixInstance` is a fixed point of
`solve (-1)` and the sixth output equals the first. -/
theorem settling_at_fixed_point_witness :
    (fixInstance.solve (-1)).2 = fixInstance ∧
    outSeq fixInstance (-1) 5 = outSeq fixInstance (-1) 0 := by
  have hfix : (fixInstance.solve (-1)).2 = fixInstance := by
    ext <;>
      norm_num [fixInstance, negInstance, Integrator6581.solve,
        Integrator6581.solveKVg, Integrator6581.solveVgs,
        Integrator6581.solveVgd, snakeTerm, vcrTerm]
  exact ⟨hfix, settling_at_fixed_point fixInstance (-1) hfix 5⟩

end ReSIDfp
